import Mathlib

/-
Verification development for the issue-reporting backend.

The embedding models the two core source files:
  * src/backend/src/controllers/employeeController.js  (acceptIssue, resolveIssue)
  * src/backend/src/services/escalationService.js      (checkAndEscalateIssues,
    escalateIssue, assignToFieldStaff, findUserForRole, findAllUsersForRole)

Conventions of the shallow embedding:
  * Timestamps are milliseconds since epoch, modelled as Int (JS Date arithmetic
    is on signed numbers).
  * MongoDB documents distinguish a missing field from an explicit null; where the
    queries distinguish them (escalationDeadline) we use the three-valued MField,
    elsewhere Option suffices because a query for null matches null and missing alike.
  * GPS coordinates are JS floats, idealised as real numbers; everything that does
    not touch coordinates stays computable.
  * Stateful controller actions become pure functions returning the persisted
    document (the document as saved; failure paths that return before a save leave
    it equal to the input) together with the HTTP-level result.
-/

namespace IssueReporting

/-- A MongoDB document field that distinguishes a missing field from an explicit
null: `missing` models an absent field, `nul` an explicit null, `val a` a value. -/
inductive MField (α : Type) where
  | missing
  | nul
  | val (a : α)
deriving DecidableEq, Repr

/-- One entry of `escalationHistory` ({fromRole, toRole, escalatedBy, reason, escalatedAt}). -/
structure EscalationEntry where
  fromRole : String
  toRole : String
  escalatedBy : Nat
  reason : String
  escalatedAt : Int
deriving DecidableEq, Repr

/-- The Issue document, with the fields the two core source files read or write.
`locationLat`/`locationLng` model `issue.location?.coordinates?.latitude/longitude`
(none when any link of the optional chain is absent); `resolvedPhoto`,
`resolvedLocationLat/Lng` and `resolvedBy` model the `issue.resolved` subdocument. -/
structure IssueDoc where
  id : Nat
  title : String
  category : String
  priority : Option String
  status : String
  assignedRole : Option String
  assignedTo : Option Nat
  assignedBy : Option Nat
  assignedAt : Option Int
  acceptedBy : Option Nat
  acceptedAt : Option Int
  escalationDeadline : MField Int
  escalationHistory : List EscalationEntry
  createdAt : Int
  reportedBy : Option Nat
  pointsAwarded : Bool
  locationLat : Option ℝ
  locationLng : Option ℝ
  resolvedPhoto : Option String
  resolvedLocationLat : Option ℝ
  resolvedLocationLng : Option ℝ
  resolvedBy : Option Nat
  resolvedAt : Option Int
  actualResolutionTime : Option Int

/-- A staff-directory (User) document, with the fields the core consumes. -/
structure UserDoc where
  id : Nat
  role : String
  isActive : Bool
  departments : List String
  department : Option String
  loginCount : Int
  lastLogin : Int
  points : Int
deriving DecidableEq, Repr

/-! ## Accept gate (employeeController.acceptIssue) -/

/-- `const employeeRoles = ['field-staff', 'supervisor', 'commissioner', 'employee']`. -/
def employeeRoles : List String := ["field-staff", "supervisor", "commissioner", "employee"]

/-- The outcomes acceptIssue can return, one constructor per distinct response of the
source (403 not an employee, 404 not found, 403 assigned to another employee,
400 already accepted, 400 wrong status, 400 fallback, 200 success). -/
inductive AcceptResult where
  | accepted
  | errNotEmployee
  | errNotFound
  | errAssignedOther
  | errAlreadyAccepted
  | errWrongStatus
  | errUnknown
deriving DecidableEq, Repr

/-- HTTP status code attached to each accept outcome in the source. -/
def acceptStatusCode : AcceptResult → Nat
  | .accepted => 200
  | .errNotEmployee => 403
  | .errNotFound => 404
  | .errAssignedOther => 403
  | .errAlreadyAccepted => 400
  | .errWrongStatus => 400
  | .errUnknown => 400

structure AcceptOutcome where
  result : AcceptResult
  issue : Option IssueDoc
  matchedCount : Nat

/-- The match predicate of the atomic conditional update in acceptIssue:
status ∈ {reported, assigned}, acceptedBy null (matches null or missing),
and assignedTo null or equal to the caller. -/
def acceptCond (issue : IssueDoc) (uid : Nat) : Prop :=
  (issue.status = "reported" ∨ issue.status = "assigned") ∧
    issue.acceptedBy = none ∧
    (issue.assignedTo = none ∨ issue.assignedTo = some uid)

instance (issue : IssueDoc) (uid : Nat) : Decidable (acceptCond issue uid) := by
  unfold acceptCond; infer_instance

/-- The body of employeeController.acceptIssue once the issue has been found:
pre-check that an individually assigned issue is only acceptable by its assignee,
then the atomic conditional update; on zero rows matched, the diagnostic re-read
produces the precise error. -/
def acceptIssueFound (issue : IssueDoc) (user : UserDoc) (now : Int) : AcceptOutcome :=
  if issue.assignedTo ≠ none ∧ issue.assignedTo ≠ some user.id then
    ⟨.errAssignedOther, some issue, 0⟩
  else if acceptCond issue user.id then
    ⟨.accepted,
      some { issue with
        status := "in-progress",
        acceptedBy := some user.id,
        acceptedAt := some now,
        assignedTo := some user.id,
        assignedBy := some (issue.assignedBy.getD user.id),
        assignedAt := some (issue.assignedAt.getD now) },
      1⟩
  else if issue.acceptedBy ≠ none then ⟨.errAlreadyAccepted, some issue, 0⟩
  else if ¬ (issue.status = "reported" ∨ issue.status = "assigned") then
    ⟨.errWrongStatus, some issue, 0⟩
  else if issue.assignedTo ≠ none ∧ issue.assignedTo ≠ some user.id then
    ⟨.errAssignedOther, some issue, 0⟩
  else ⟨.errUnknown, some issue, 0⟩

/-- employeeController.acceptIssue: role gate, existence check, then the body above.
`db` is the record found by id (none models a missing issue). -/
def acceptIssue (db : Option IssueDoc) (user : UserDoc) (now : Int) : AcceptOutcome :=
  if ¬ user.role ∈ employeeRoles then ⟨.errNotEmployee, db, 0⟩
  else
    match db with
    | none => ⟨.errNotFound, none, 0⟩
    | some issue => acceptIssueFound issue user now

/-! ## Staff directory lookup (escalationService.findUserForRole / findAllUsersForRole) -/

/-- The sort key of `.sort({ loginCount: 1, lastLogin: -1 })`: ascending by
loginCount, then descending by lastLogin. -/
def staffSortLE (u v : UserDoc) : Prop :=
  u.loginCount < v.loginCount ∨
    (u.loginCount = v.loginCount ∧ v.lastLogin ≤ u.lastLogin)

instance : DecidableRel staffSortLE := by
  unfold staffSortLE; infer_instance

/-- The result-set ordering the sort produces (Mongo does not fix the order of ties;
the model sorts deterministically, consistent with the key). -/
def sortStaff (l : List UserDoc) : List UserDoc := l.insertionSort staffSortLE

/-- First query: role, isActive, and `$or` of `departments: {$in: [category,'All']}`
(the array contains category or 'All') and `department: {$in: [category,'All']}`. -/
def tierDept (role category : String) (u : UserDoc) : Bool :=
  u.role == role && u.isActive &&
    (u.departments.contains category || u.departments.contains "All" ||
      u.department == some category || u.department == some "All")

/-- Second query: role, isActive, and `$or` of `departments: 'All'` (in Mongo an
equality against an array field matches when the array contains the value) and
`department: 'All'`. -/
def tierAll (role : String) (u : UserDoc) : Bool :=
  u.role == role && u.isActive &&
    (u.departments.contains "All" || u.department == some "All")

/-- Third query: any active user with the role. -/
def tierAny (role : String) (u : UserDoc) : Bool :=
  u.role == role && u.isActive

/-- escalationService.findAllUsersForRole: three queries, first non-empty wins,
each sorted by `{loginCount: 1, lastLogin: -1}`. `dir` is the users collection. -/
def findAllUsersForRole (dir : List UserDoc) (role category : String) : List UserDoc :=
  let t1 := sortStaff (dir.filter (tierDept role category))
  if t1 ≠ [] then t1
  else
    let t2 := sortStaff (dir.filter (tierAll role))
    if t2 ≠ [] then t2
    else sortStaff (dir.filter (tierAny role))

/-- escalationService.findUserForRole: the same three queries as findOne; a findOne
with a sort returns the head of the sorted result set. -/
def findUserForRole (dir : List UserDoc) (role category : String) : Option UserDoc :=
  match (sortStaff (dir.filter (tierDept role category))).head? with
  | some u => some u
  | none =>
    match (sortStaff (dir.filter (tierAll role))).head? with
    | some u => some u
    | none => (sortStaff (dir.filter (tierAny role))).head?

/-- Claim-side: the staff member's department set, the union of the `departments`
array and the legacy scalar `department`. -/
def deptSet (u : UserDoc) : List String :=
  u.departments ++ u.department.toList

/-- Claim-side tier 1: active staff with the role whose department set contains the
category or the wildcard "All". -/
def specTierDept (role category : String) (u : UserDoc) : Bool :=
  u.role == role && u.isActive &&
    ((deptSet u).contains category || (deptSet u).contains "All")

/-- Claim-side tier 2: active staff with the role whose department set is the
wildcard "All" (nothing but the wildcard). -/
def specTierAll (role : String) (u : UserDoc) : Bool :=
  u.role == role && u.isActive &&
    (!(deptSet u).isEmpty && (deptSet u).all (· == "All"))

/-- Claim-side eligible-staff lookup, following the claim's words: first non-empty
of the three tiers, each ordered ascending by login count then descending by last
login. -/
def specFindEligibleStaff (dir : List UserDoc) (role category : String) : List UserDoc :=
  let t1 := sortStaff (dir.filter (specTierDept role category))
  if t1 ≠ [] then t1
  else
    let t2 := sortStaff (dir.filter (specTierAll role))
    if t2 ≠ [] then t2
    else sortStaff (dir.filter (tierAny role))

/-! ## Deadline calculator and Issue model methods

The Issue model (src/backend/src/models/Issue.js) is not part of the sources; the
three methods the escalation service calls on it are modelled from the spec. -/

/-- Modelled from the spec: `issue.calculateEscalationDeadline(priority, role)` lives
in the Issue model, which is not under src/. Per section 4.2 the calculator is a pure
function of (priority, role) given the current time, driven by a configured duration
table; `cfg` is that externalised table. -/
def calculateEscalationDeadline (cfg : String → String → Int) (now : Int)
    (priority role : String) : Int :=
  now + cfg priority role

/-- Modelled from the spec: `issue.escalate(nextRole, byWhom, reason)` lives in the
Issue model, which is not under src/. Per section 4.4 step 4 it appends one
escalationHistory entry {fromRole, toRole, actor, reason, timestamp}, sets
assignedRole to the next role and status to "escalated", and recomputes the
escalationDeadline for the new role via the calculator (assignedTo/assignedBy are
set by the caller in the source). -/
def issueEscalate (cfg : String → String → Int) (now : Int) (i : IssueDoc)
    (nextRole : String) (byWhom : Nat) (reason : String) : IssueDoc :=
  { i with
    escalationHistory := i.escalationHistory ++
      [{ fromRole := i.assignedRole.getD "unassigned", toRole := nextRole,
         escalatedBy := byWhom, reason := reason, escalatedAt := now }],
    assignedRole := some nextRole,
    status := "escalated",
    escalationDeadline :=
      MField.val (calculateEscalationDeadline cfg now (i.priority.getD "medium") nextRole) }

/-- Modelled from the spec: `issue.assign(assignedTo, assignedBy, role)` lives in the
Issue model, which is not under src/. Per section 4.3 it sets assignedRole,
assignedTo, assignedBy, assignedAt := now, status := "assigned" (or "in-progress"
if already accepted), and computes the escalationDeadline via the calculator. -/
def issueAssign (cfg : String → String → Int) (now : Int) (i : IssueDoc)
    (toId byId : Nat) (role : String) : IssueDoc :=
  { i with
    assignedRole := some role,
    assignedTo := some toId,
    assignedBy := some byId,
    assignedAt := some now,
    status := if i.acceptedBy ≠ none then "in-progress" else "assigned",
    escalationDeadline :=
      MField.val (calculateEscalationDeadline cfg now (i.priority.getD "medium") role) }

/-! ## Escalation transition (escalationService.escalateIssue / assignToFieldStaff) -/

/-- The value returned to the sweep by a successful transition
({toRole, assignedTo, notifiedUsers}). -/
structure EscResult where
  toRole : String
  assignedTo : Nat
  notifiedUsers : Nat
deriving DecidableEq, Repr

/-- Outcome of a single transition: the source's return value (none models the
`return null` no-op paths), the issue document as persisted, and the ids of the
staff notified. -/
structure EscOutcome where
  result : Option EscResult
  issue : IssueDoc
  notifications : List Nat

/-- escalationService.assignToFieldStaff: find one eligible field-staff; if none,
warn and return null (recoverable no-op); otherwise `issue.assign` and notify the
assignee. The source's result object has no notifiedUsers field; we record the one
notification sent. -/
def assignToFieldStaff (cfg : String → String → Int) (now : Int)
    (dir : List UserDoc) (issue : IssueDoc) : EscOutcome :=
  match findUserForRole dir "field-staff" issue.category with
  | none => ⟨none, issue, []⟩
  | some fieldStaff =>
    ⟨some ⟨"field-staff", fieldStaff.id, 1⟩,
      issueAssign cfg now issue fieldStaff.id fieldStaff.id "field-staff",
      [fieldStaff.id]⟩

/-- True when the JS value of escalationDeadline is falsy (`!issue.escalationDeadline`):
null and undefined are falsy, a Date object is truthy. -/
def deadlineFalsy : MField Int → Bool
  | .val _ => false
  | _ => true

/-- escalationService.escalateIssue: no role means assign to field-staff; the
hierarchy table maps field-staff to supervisor to commissioner, commissioner cannot
escalate further (`return null`, a no-op); then all users for the next role are
looked up, an empty list aborts this issue (no-op); a missing deadline is back-filled
for the current role, `issue.escalate(...)` runs, assignedTo/assignedBy are set to the
first eligible user, the issue is saved and every user at the next role is notified. -/
def escalateIssue (cfg : String → String → Int) (now : Int)
    (dir : List UserDoc) (issue : IssueDoc) : EscOutcome :=
  match issue.assignedRole with
  | none => assignToFieldStaff cfg now dir issue
  | some currentRole =>
    let nextRole? : Option String :=
      if currentRole = "field-staff" then some "supervisor"
      else if currentRole = "supervisor" then some "commissioner"
      else none
    match nextRole? with
    | none => ⟨none, issue, []⟩
    | some nextRole =>
      match findAllUsersForRole dir nextRole issue.category with
      | [] => ⟨none, issue, []⟩
      | assignedUser :: rest =>
        let issue1 :=
          if deadlineFalsy issue.escalationDeadline ∧ issue.priority ≠ none then
            { issue with escalationDeadline :=
                MField.val (calculateEscalationDeadline cfg now (issue.priority.getD "medium") currentRole) }
          else issue
        let issue2 := issueEscalate cfg now issue1 nextRole assignedUser.id
          "Auto-escalated: Time limit exceeded"
        let issue3 := { issue2 with
          assignedTo := some assignedUser.id, assignedBy := some assignedUser.id }
        ⟨some ⟨nextRole, assignedUser.id, (assignedUser :: rest).length⟩,
          issue3, (assignedUser :: rest).map (·.id)⟩

/-! ## Escalation sweep (escalationService.checkAndEscalateIssues) -/

/-- The 5-minute window of `new Date(now.getTime() - 5 * 60 * 1000)`, in ms. -/
def gracePeriodMs : Int := 5 * 60 * 1000

/-- `assignedRole: { $in: ['field-staff', 'supervisor'] }` (the additional
`$ne: 'commissioner'` of the first branch is subsumed by the `$in`). -/
def roleFsSup : Option String → Bool
  | some r => r == "field-staff" || r == "supervisor"
  | none => false

/-- `escalationDeadline: { $lte: now, $exists: true }`: BSON type bracketing means a
`$lte` against a Date only matches Date values, so only an actual value qualifies. -/
def deadlinePassed (now : Int) : MField Int → Bool
  | .val d => decide (d ≤ now)
  | _ => false

/-- `escalationDeadline: { $exists: false }`: only a missing field. -/
def deadlineMissing : MField Int → Bool
  | .missing => true
  | _ => false

/-- `escalationDeadline: null`: a Mongo equality against null matches an explicit
null and a missing field alike. -/
def deadlineNullish : MField Int → Bool
  | .val _ => false
  | _ => true

/-- The selection filter of the sweep's `Issue.find`: the status `$in` plus the
four-branch `$or` of checkAndEscalateIssues. -/
def overdueFilter (now : Int) (i : IssueDoc) : Bool :=
  (i.status == "reported" || i.status == "in-progress" || i.status == "escalated") &&
    ((roleFsSup i.assignedRole && deadlinePassed now i.escalationDeadline) ||
     (roleFsSup i.assignedRole && deadlineMissing i.escalationDeadline && i.assignedAt.isSome) ||
     (roleFsSup i.assignedRole && deadlineNullish i.escalationDeadline &&
       decide (i.createdAt ≤ now - gracePeriodMs)) ||
     (i.assignedRole.isNone && i.status == "reported" &&
       decide (i.createdAt ≤ now - gracePeriodMs)))

/-- Claim-side selection predicate, following the claim's words: clause (c) demands
an explicitly null escalationDeadline. -/
def claimOverdue (now : Int) (i : IssueDoc) : Prop :=
  i.status ∈ ["reported", "in-progress", "escalated"] ∧
    (((i.assignedRole = some "field-staff" ∨ i.assignedRole = some "supervisor") ∧
        ∃ d, i.escalationDeadline = .val d ∧ d ≤ now) ∨
     ((i.assignedRole = some "field-staff" ∨ i.assignedRole = some "supervisor") ∧
        i.escalationDeadline = .missing ∧ i.assignedAt ≠ none) ∨
     ((i.assignedRole = some "field-staff" ∨ i.assignedRole = some "supervisor") ∧
        i.escalationDeadline = .nul ∧ now - i.createdAt ≥ gracePeriodMs) ∨
     (i.assignedRole = none ∧ i.status = "reported" ∧ now - i.createdAt ≥ gracePeriodMs))

/-- Claim-side selection predicate as amended: clause (c) accepts a null or absent
escalationDeadline (a Mongo equality against null matches both). -/
def claimOverdueAmended (now : Int) (i : IssueDoc) : Prop :=
  i.status ∈ ["reported", "in-progress", "escalated"] ∧
    (((i.assignedRole = some "field-staff" ∨ i.assignedRole = some "supervisor") ∧
        ∃ d, i.escalationDeadline = .val d ∧ d ≤ now) ∨
     ((i.assignedRole = some "field-staff" ∨ i.assignedRole = some "supervisor") ∧
        i.escalationDeadline = .missing ∧ i.assignedAt ≠ none) ∨
     ((i.assignedRole = some "field-staff" ∨ i.assignedRole = some "supervisor") ∧
        (i.escalationDeadline = .nul ∨ i.escalationDeadline = .missing) ∧
        now - i.createdAt ≥ gracePeriodMs) ∨
     (i.assignedRole = none ∧ i.status = "reported" ∧ now - i.createdAt ≥ gracePeriodMs))

/-- The age-based target role of the unassigned-recovery branch:
`issueAge = now - (issue.createdAt || now)` (a zero createdAt is falsy), and the
high/urgent, medium and low branches of the source all use the same thresholds,
hoursOld >= 1/6 (600000 ms) for commissioner, hoursOld >= 1/12 (300000 ms) for
supervisor. -/
def targetRoleFor (now : Int) (issue : IssueDoc) : String :=
  let issueAge := now - (if issue.createdAt ≠ 0 then issue.createdAt else now)
  let priority := issue.priority.getD "medium"
  if priority = "high" ∨ priority = "urgent" then
    if issueAge ≥ 600000 then "commissioner"
    else if issueAge ≥ 300000 then "supervisor"
    else "field-staff"
  else if priority = "medium" then
    if issueAge ≥ 600000 then "commissioner"
    else if issueAge ≥ 300000 then "supervisor"
    else "field-staff"
  else
    if issueAge ≥ 600000 then "commissioner"
    else if issueAge ≥ 300000 then "supervisor"
    else "field-staff"

/-- One entry of the sweep's escalationResults list; the error entries of the source
carry no fromRole/toRole. -/
structure SweepEntry where
  issueId : Nat
  title : String
  fromRole : Option String
  toRole : Option String
  success : Bool
  error : Option String
deriving DecidableEq, Repr

/-- The body of the sweep's per-issue loop (without the try/catch): the
unassigned-role recovery (first assignment or direct fast-track, which saves the
issue and notifies every user at the target role but appends nothing to
escalationHistory), or a single-step escalateIssue. Returns the entry pushed onto
escalationResults (none when the source pushes nothing), the issue as persisted,
and the notified user ids. In the escalateIssue branch the source reads
`issue.assignedRole` for fromRole after escalateIssue has already mutated it. -/
def processOverdueIssue (cfg : String → String → Int) (now : Int)
    (dir : List UserDoc) (issue : IssueDoc) :
    Option SweepEntry × IssueDoc × List Nat :=
  match issue.assignedRole with
  | none =>
    let targetRole := targetRoleFor now issue
    if targetRole = "field-staff" then
      let o := assignToFieldStaff cfg now dir issue
      match o.result with
      | some _ =>
        (some ⟨issue.id, issue.title, some "unassigned", some "field-staff", true, none⟩,
          o.issue, o.notifications)
      | none => (none, o.issue, o.notifications)
    else
      match findAllUsersForRole dir targetRole issue.category with
      | [] => (none, issue, [])
      | u :: rest =>
        let issue1 := { issue with
          assignedRole := some targetRole,
          assignedTo := some u.id,
          assignedBy := some u.id,
          assignedAt := some now,
          status := "escalated",
          escalationDeadline :=
            if issue.priority ≠ none then
              MField.val (calculateEscalationDeadline cfg now (issue.priority.getD "medium") targetRole)
            else issue.escalationDeadline }
        (some ⟨issue.id, issue.title, some "unassigned", some targetRole, true, none⟩,
          issue1, (u :: rest).map (·.id))
  | some _ =>
    let o := escalateIssue cfg now dir issue
    match o.result with
    | some r =>
      (some ⟨issue.id, issue.title, o.issue.assignedRole, some r.toRole, true, none⟩,
        o.issue, o.notifications)
    | none => (none, o.issue, o.notifications)

/-- The entries one selected issue contributes to escalationResults: the catch block
turns a rejection anywhere inside the loop body into one failure entry (the `oracle`
models whether some awaited call inside the try block of this issue rejects, and
with what message); otherwise the body contributes its entry, if any. -/
def sweepEntriesOf (cfg : String → String → Int) (now : Int) (dir : List UserDoc)
    (oracle : IssueDoc → Option String) (issue : IssueDoc) : List SweepEntry :=
  match oracle issue with
  | some e => [⟨issue.id, issue.title, none, none, false, some e⟩]
  | none => (processOverdueIssue cfg now dir issue).1.toList

/-- The sweep's for-loop over the selected issues: entries accumulate in order, the
per-issue issue states and notification fan-outs are collected alongside (an issue
whose body rejects is kept unmutated here; no theorem relies on the partial state of
an interrupted body). -/
def sweepLoop (cfg : String → String → Int) (now : Int) (dir : List UserDoc)
    (oracle : IssueDoc → Option String) :
    List IssueDoc → List SweepEntry × List IssueDoc × List Nat
  | [] => ([], [], [])
  | issue :: rest =>
    let head :=
      match oracle issue with
      | some e =>
        (([⟨issue.id, issue.title, none, none, false, some e⟩] : List SweepEntry),
          issue, ([] : List Nat))
      | none =>
        let p := processOverdueIssue cfg now dir issue
        (p.1.toList, p.2.1, p.2.2)
    let tail := sweepLoop cfg now dir oracle rest
    (head.1 ++ tail.1, head.2.1 :: tail.2.1, head.2.2 ++ tail.2.2)

/-- The aggregate the sweep returns: {checked, escalated, failed, results}. -/
structure SweepResult where
  checked : Nat
  escalated : Nat
  failed : Nat
  results : List SweepEntry
deriving DecidableEq, Repr

/-- escalationService.checkAndEscalateIssues: select the overdue issues, drive each
through the per-issue body, and return checked = number found, escalated = number of
success entries, failed = number of failure entries, plus the itemized list. Also
returns the final issue states and all notifications, for the other theorems. -/
def checkAndEscalateIssues (cfg : String → String → Int) (now : Int)
    (dir : List UserDoc) (oracle : IssueDoc → Option String)
    (issues : List IssueDoc) : SweepResult × List IssueDoc × List Nat :=
  let overdue := issues.filter (overdueFilter now)
  let loop := sweepLoop cfg now dir oracle overdue
  (⟨overdue.length,
    (loop.1.filter (·.success)).length,
    (loop.1.filter (fun r => ! r.success)).length,
    loop.1⟩,
   loop.2.1, loop.2.2)

/-! ## Resolve gate (employeeController.resolveIssue)

GPS coordinates and the haversine computation are over ℝ (the idealisation of the
JS floats); the branches of resolveIssue that compare reals therefore use classical
decidability, and every other branch stays kernel-reducible. -/

/-- JS `Math.atan2(y, x)`. Our witnesses only exercise the `0 < x` branch. -/
noncomputable def atan2 (y x : ℝ) : ℝ :=
  if 0 < x then Real.arctan (y / x)
  else if x < 0 ∧ 0 ≤ y then Real.arctan (y / x) + Real.pi
  else if x < 0 ∧ y < 0 then Real.arctan (y / x) - Real.pi
  else if x = 0 ∧ 0 < y then Real.pi / 2
  else if x = 0 ∧ y < 0 then -(Real.pi / 2)
  else 0

/-- The inline haversine computation of resolveIssue: R = 6371000 m, degree inputs
(lat1, lng1) = original report coordinates, (lat2, lng2) = supplied resolution
coordinates; distance in meters. -/
noncomputable def haversineDistance (lat1 lng1 lat2 lng2 : ℝ) : ℝ :=
  let R : ℝ := 6371000
  let dLat := (lat2 - lat1) * Real.pi / 180
  let dLng := (lng2 - lng1) * Real.pi / 180
  let a := Real.sin (dLat / 2) * Real.sin (dLat / 2) +
    Real.cos (lat1 * Real.pi / 180) * Real.cos (lat2 * Real.pi / 180) *
      Real.sin (dLng / 2) * Real.sin (dLng / 2)
  let c := 2 * atan2 (Real.sqrt a) (Real.sqrt (1 - a))
  R * c

/-- `const allowedDistanceMeters = 100`. -/
def allowedDistanceMeters : ℝ := 100

/-- The request body of a resolve call: `latitude`/`longitude` from req.body (none
models an absent field; the source guards them with JS truthiness, under which the
number 0 also fails the guard), and the optional uploaded photo. -/
structure ResolveBody where
  latitude : Option ℝ
  longitude : Option ℝ
  file : Option String

/-- The collaborators of resolveIssue: the clock, the reporter lookup
(`User.findById`), and whether the point-award try block rejects (covering a
rejection of `User.findById` or `reporter.save()`). -/
structure ResolveEnv where
  now : Int
  findUser : Nat → Option UserDoc
  pointsFailure : Bool

/-- The outcomes resolveIssue can return, one constructor per distinct response of
the source (404, 400 must-accept-first, 403 not the accepter, 400 geofence,
500 points award, 400 must be in-progress, 200 success). -/
inductive ResolveResult where
  | resolved
  | errNotFound
  | errNotAccepted
  | errNotAccepter
  | errGeofence
  | errPointsAward
  | errWrongStatus
deriving DecidableEq, Repr

/-- HTTP status code attached to each resolve outcome in the source. -/
def resolveStatusCode : ResolveResult → Nat
  | .resolved => 200
  | .errNotFound => 404
  | .errNotAccepted => 400
  | .errNotAccepter => 403
  | .errGeofence => 400
  | .errPointsAward => 500
  | .errWrongStatus => 400

/-- Outcome of a resolve call: the response, the issue document as persisted (equal
to the input on every path that returns before `issue.save()`), and the net change
the call committed to the reporter's points balance (`reporter.save()` commits
before the status check). -/
structure ResolveOutcome where
  result : ResolveResult
  issue : IssueDoc
  pointsDelta : Int

/-- The photo-attachment step of resolveIssue: an uploaded file sets
`issue.resolved.photo` on the in-memory document. -/
def attachPhoto (issue : IssueDoc) (body : ResolveBody) : IssueDoc :=
  match body.file with
  | some f => { issue with resolvedPhoto := some f }
  | none => issue

/-- `issue.resolved.location = { latitude, longitude }` on the in-memory document. -/
def storeResolvedLocation (i : IssueDoc) (lat lng : ℝ) : IssueDoc :=
  { i with resolvedLocationLat := some lat, resolvedLocationLng := some lng }

/-- The geofence block of resolveIssue, entered when the supplied coordinates are
truthy: if the original coordinates are also truthy (a coordinate equal to 0 is
falsy in JS and skips the check) and the haversine distance exceeds
allowedDistanceMeters, fail (none); otherwise store the resolution location. -/
noncomputable def geofenceStep (i : IssueDoc) (lat lng : ℝ) : Option IssueDoc :=
  match i.locationLat, i.locationLng with
  | some olat, some olng =>
    if olat ≠ 0 ∧ olng ≠ 0 then
      if haversineDistance olat olng lat lng > allowedDistanceMeters then none
      else some (storeResolvedLocation i lat lng)
    else some (storeResolvedLocation i lat lng)
  | _, _ => some (storeResolvedLocation i lat lng)

/-- The point-award block of resolveIssue (`if (oldStatus !== 'resolved') { if
(issue.reportedBy && !issue.pointsAwarded) { try ... } }`): none models a rejection
inside the try block (a hard 500); otherwise the updated in-memory document and the
points delta committed to the reporter (`reporter.save()` runs here, before any
status check; a missing reporter is silently skipped). -/
def pointsAwardStep (inMem : IssueDoc) (env : ResolveEnv) : Option (IssueDoc × Int) :=
  if inMem.status ≠ "resolved" then
    match inMem.reportedBy with
    | some rid =>
      if ¬ inMem.pointsAwarded then
        if env.pointsFailure then none
        else
          match env.findUser rid with
          | some _ => some ({ inMem with pointsAwarded := true }, 10)
          | none => some (inMem, 0)
      else some (inMem, 0)
    | none => some (inMem, 0)
  else some (inMem, 0)

/-- The tail of resolveIssue after photo and geofence handling: the point-award
block, then the must-be-in-progress check, then the resolution write and
`issue.save()`. `issue` is the persisted document, `inMem` the in-memory one.
The award commits `reporter.save()` before the status check, so `pointsDelta`
survives an errWrongStatus return while the issue document does not record
pointsAwarded. -/
def resolveTail (issue inMem : IssueDoc) (user : UserDoc)
    (env : ResolveEnv) : ResolveOutcome :=
  match pointsAwardStep inMem env with
  | none => ⟨.errPointsAward, issue, 0⟩
  | some (inMem2, delta) =>
    if inMem2.status ≠ "in-progress" then ⟨.errWrongStatus, issue, delta⟩
    else
      ⟨.resolved,
        { inMem2 with
          resolvedAt := some env.now,
          status := "resolved",
          resolvedBy := some user.id,
          actualResolutionTime :=
            if inMem2.createdAt ≠ 0 then
              some (Int.fdiv (env.now - inMem2.createdAt) 86400000)
            else inMem2.actualResolutionTime },
        delta⟩

/-- employeeController.resolveIssue on an existing issue: strict authorization
(only the accepter, or an admin, may resolve; an unaccepted issue cannot be
resolved), photo attachment, the truthiness-guarded geofence block, then
resolveTail. The ML-removal call and the resolution notification are fire-and-forget
downstream effects with no bearing on the returned state. -/
noncomputable def resolveIssue (issue : IssueDoc) (user : UserDoc)
    (body : ResolveBody) (env : ResolveEnv) : ResolveOutcome :=
  if issue.acceptedBy = none then ⟨.errNotAccepted, issue, 0⟩
  else if ¬ user.role = "admin" ∧ issue.acceptedBy ≠ some user.id then
    ⟨.errNotAccepter, issue, 0⟩
  else
    let issue1 := attachPhoto issue body
    match body.latitude, body.longitude with
    | some lat, some lng =>
      if lat ≠ 0 ∧ lng ≠ 0 then
        match geofenceStep issue1 lat lng with
        | none => ⟨.errGeofence, issue, 0⟩
        | some issue2 => resolveTail issue issue2 user env
      else resolveTail issue issue1 user env
    | _, _ => resolveTail issue issue1 user env

/-- Repeated resolve invocations on the same issue by the same caller: threads the
persisted document and accumulates the committed points deltas. -/
noncomputable def resolveSeq (user : UserDoc) (body : ResolveBody)
    (env : ResolveEnv) (issue : IssueDoc) : Nat → IssueDoc × Int
  | 0 => (issue, 0)
  | n + 1 =>
    let p := resolveSeq user body env issue n
    let o := resolveIssue p.1 user body env
    (o.issue, p.2 + o.pointsDelta)

/-! ## Concrete fixtures used by witnesses and counterexamples -/

/-- A neutral freshly reported issue; witnesses update the fields they need. -/
def baseIssue : IssueDoc :=
  { id := 1, title := "pothole", category := "Roads", priority := some "medium",
    status := "reported", assignedRole := none, assignedTo := none,
    assignedBy := none, assignedAt := none, acceptedBy := none, acceptedAt := none,
    escalationDeadline := .missing, escalationHistory := [], createdAt := 1,
    reportedBy := none, pointsAwarded := false, locationLat := none,
    locationLng := none, resolvedPhoto := none, resolvedLocationLat := none,
    resolvedLocationLng := none, resolvedBy := none, resolvedAt := none,
    actualResolutionTime := none }

/-- A neutral active field-staff member. -/
def baseUser : UserDoc :=
  { id := 7, role := "field-staff", isActive := true, departments := ["Roads"],
    department := none, loginCount := 0, lastLogin := 0, points := 0 }

/-- A resolve request body with nothing supplied. -/
def noBody : ResolveBody := ⟨none, none, none⟩

/-- A resolve environment in which the reporter exists and nothing rejects. -/
def baseEnv : ResolveEnv :=
  ⟨1000000, fun _ => some { baseUser with id := 3, role := "citizen" }, false⟩

/-- A flat testing duration table for the deadline calculator. -/
def testCfg : String → String → Int := fun _ _ => 300000

/-- A field-staff issue whose deadline has long passed; selected by the sweep. -/
def overdueFixture : IssueDoc :=
  { baseIssue with
    status := "in-progress", assignedRole := some "field-staff",
    escalationDeadline := .val 0 }

/-- An active commissioner servicing all departments. -/
def commFixture : UserDoc :=
  { baseUser with id := 20, role := "commissioner", departments := ["All"] }

/-- A never-assigned high-priority issue reported just after the epoch. -/
def unassignedHighFixture : IssueDoc :=
  { baseIssue with priority := some "high", createdAt := 1 }

/-- An accepted in-progress issue reported on the equator at 45 degrees east: the
latitude 0 is recorded but falsy in JS. -/
def geoZeroIssue : IssueDoc :=
  { baseIssue with
    acceptedBy := some 7, status := "in-progress",
    locationLat := some 0, locationLng := some 45 }

/-- A resolution reported from the North Pole on the same meridian. -/
def geoFarBody : ResolveBody := ⟨some 90, some 45, none⟩

/-- An accepted in-progress issue reported at (45 N, 90 E). -/
def geoStoredIssue : IssueDoc :=
  { baseIssue with
    acceptedBy := some 7, status := "in-progress",
    locationLat := some 45, locationLng := some 90 }

/-- A resolution reported from the mirror point (45 S, 90 E). -/
def geoMirrorBody : ResolveBody := ⟨some (-45), some 90, none⟩

/-- An accepted in-progress issue with no stored report coordinates. -/
def geoNoCoordsIssue : IssueDoc :=
  { baseIssue with acceptedBy := some 7, status := "in-progress" }

/-- A resolution location with arbitrary far-away coordinates. -/
def geoAnyBody : ResolveBody := ⟨some 500, some 500, none⟩

/-! ## Theorems -/

/-- C1: for an existing issue and a caller whose role is in the employee role set,
accept succeeds exactly when status is reported or assigned, acceptedBy is unset and
assignedTo is unset or the caller; on success the single conditional update matches
one row and sets status, acceptedBy, acceptedAt and assignedTo to the caller while
keeping any existing assignedBy/assignedAt; otherwise the update matches zero rows,
the issue is unchanged and the error names the precise failing clause (the
individually-assigned pre-check fires first, then already-accepted, then status). -/
theorem accept_exclusive_gate (issue : IssueDoc) (user : UserDoc) (now : Int)
    (hrole : user.role ∈ employeeRoles) :
    ((acceptIssue (some issue) user now).result = .accepted ↔ acceptCond issue user.id) ∧
    (acceptCond issue user.id →
      acceptIssue (some issue) user now =
        ⟨.accepted,
          some { issue with
            status := "in-progress", acceptedBy := some user.id,
            acceptedAt := some now, assignedTo := some user.id,
            assignedBy := some (issue.assignedBy.getD user.id),
            assignedAt := some (issue.assignedAt.getD now) }, 1⟩) ∧
    (¬ acceptCond issue user.id →
      (acceptIssue (some issue) user now).issue = some issue ∧
      (acceptIssue (some issue) user now).matchedCount = 0 ∧
      (issue.assignedTo ≠ none ∧ issue.assignedTo ≠ some user.id →
        (acceptIssue (some issue) user now).result = .errAssignedOther) ∧
      ((issue.assignedTo = none ∨ issue.assignedTo = some user.id) →
        issue.acceptedBy ≠ none →
        (acceptIssue (some issue) user now).result = .errAlreadyAccepted) ∧
      ((issue.assignedTo = none ∨ issue.assignedTo = some user.id) →
        issue.acceptedBy = none →
        (acceptIssue (some issue) user now).result = .errWrongStatus)) := by
  have hr : ¬¬ user.role ∈ employeeRoles := not_not_intro hrole
  have hred : acceptIssue (some issue) user now = acceptIssueFound issue user now := by
    unfold acceptIssue
    rw [if_neg hr]
  rw [hred]
  unfold acceptIssueFound
  by_cases hpre : issue.assignedTo ≠ none ∧ issue.assignedTo ≠ some user.id
  · rw [if_pos hpre]
    have hnc : ¬ acceptCond issue user.id := by
      rintro ⟨-, -, h | h⟩
      · exact hpre.1 h
      · exact hpre.2 h
    refine ⟨iff_of_false (by simp) hnc, fun hc => absurd hc hnc,
      fun _ => ⟨rfl, rfl, fun _ => rfl, ?_, ?_⟩⟩
    · rintro (h | h) _
      · exact absurd h hpre.1
      · exact absurd h hpre.2
    · rintro (h | h) _
      · exact absurd h hpre.1
      · exact absurd h hpre.2
  · rw [if_neg hpre]
    by_cases hc : acceptCond issue user.id
    · rw [if_pos hc]
      exact ⟨iff_of_true rfl hc, fun _ => rfl, fun h => absurd hc h⟩
    · rw [if_neg hc]
      push_neg at hpre
      by_cases hacc : issue.acceptedBy ≠ none
      · rw [if_pos hacc]
        refine ⟨iff_of_false (by simp) hc, fun h => absurd h hc,
          fun _ => ⟨rfl, rfl, ?_, fun _ _ => rfl, fun _ h => absurd h hacc⟩⟩
        rintro ⟨h1, h2⟩
        exact absurd (hpre h1) h2
      · rw [if_neg hacc]
        push_neg at hacc
        by_cases hst : ¬ (issue.status = "reported" ∨ issue.status = "assigned")
        · rw [if_pos hst]
          refine ⟨iff_of_false (by simp) hc, fun h => absurd h hc,
            fun _ => ⟨rfl, rfl, ?_, fun _ h => absurd hacc h, fun _ _ => rfl⟩⟩
          rintro ⟨h1, h2⟩
          exact absurd (hpre h1) h2
        · push_neg at hst
          exfalso
          refine hc ⟨hst, hacc, ?_⟩
          by_cases hto : issue.assignedTo = none
          · exact Or.inl hto
          · exact Or.inr (hpre hto)

/-- C1 witness: a department-wide reported issue accepted by a field-staff caller. -/
theorem accept_exclusive_gate_case :
    acceptIssue (some baseIssue) baseUser 5 =
      ⟨.accepted,
        some { baseIssue with
          status := "in-progress", acceptedBy := some 7,
          acceptedAt := some 5, assignedTo := some 7, assignedBy := some 7,
          assignedAt := some 5 }, 1⟩ :=
  (accept_exclusive_gate baseIssue baseUser 5 (by decide)).2.1 (by decide)

/-- C3 (code bug): on an accepted issue whose status is not in-progress (for example
escalated by the sweep after acceptance), every resolve call by the accepter fails
with the must-be-in-progress error and leaves the issue unchanged — pointsAwarded
included — yet each call has already committed +10 points to the reporter, so two
invocations award 20. The award precedes the status check, contradicting the
source's own comment that points are awarded when transitioning to resolved. -/
theorem resolve_points_double_award :
    (resolveSeq baseUser noBody baseEnv
        { baseIssue with
          acceptedBy := some 7, status := "escalated",
          reportedBy := some 3 } 2).2 = 20 ∧
    resolveIssue
        { baseIssue with
          acceptedBy := some 7, status := "escalated",
          reportedBy := some 3 } baseUser noBody baseEnv =
      ⟨.errWrongStatus,
        { baseIssue with
          acceptedBy := some 7, status := "escalated",
          reportedBy := some 3 }, 10⟩ :=
  ⟨rfl, rfl⟩

/-- C5: escalating an issue whose assignedRole is commissioner is a no-op and not an
error: the returned result is null, every field of the issue is unchanged, and no
notification is sent. -/
theorem commissioner_escalation_noop (cfg : String → String → Int) (now : Int)
    (dir : List UserDoc) (issue : IssueDoc)
    (h : issue.assignedRole = some "commissioner") :
    escalateIssue cfg now dir issue = ⟨none, issue, []⟩ := by
  unfold escalateIssue
  rw [h]
  rfl

/-- C5 witness: a concrete commissioner-level issue. -/
theorem commissioner_escalation_noop_case :
    escalateIssue testCfg 5 [baseUser] { baseIssue with assignedRole := some "commissioner" } =
      ⟨none, { baseIssue with assignedRole := some "commissioner" }, []⟩ :=
  commissioner_escalation_noop testCfg 5 [baseUser] _ rfl

lemma roleFsSup_iff (r : Option String) :
    roleFsSup r = true ↔ r = some "field-staff" ∨ r = some "supervisor" := by
  cases r <;> simp [roleFsSup]

lemma deadlinePassed_iff (now : Int) (f : MField Int) :
    deadlinePassed now f = true ↔ ∃ d, f = .val d ∧ d ≤ now := by
  cases f <;> simp [deadlinePassed]

lemma deadlineMissing_iff (f : MField Int) :
    deadlineMissing f = true ↔ f = .missing := by
  cases f <;> simp [deadlineMissing]

lemma deadlineNullish_iff (f : MField Int) :
    deadlineNullish f = true ↔ f = .nul ∨ f = .missing := by
  cases f <;> simp [deadlineNullish]

lemma int_age_iff (a b g : Int) : a ≤ b - g ↔ b - a ≥ g := by omega

/-- C4 counterexample: an in-progress field-staff issue whose escalationDeadline is
absent, whose assignedAt is absent and whose creation is older than the grace window
is selected by the sweep's query (a Mongo equality against null matches a missing
field), but none of the claim's four clauses holds — clause (c) demands an
explicitly null deadline. -/
theorem overdue_selection_cex :
    overdueFilter 1000000000
        { baseIssue with
          status := "in-progress", assignedRole := some "field-staff",
          escalationDeadline := .missing, assignedAt := none, createdAt := 0 } = true ∧
    ¬ claimOverdue 1000000000
        { baseIssue with
          status := "in-progress", assignedRole := some "field-staff",
          escalationDeadline := .missing, assignedAt := none, createdAt := 0 } := by
  refine ⟨rfl, ?_⟩
  rintro ⟨-, (⟨-, d, hd, -⟩ | ⟨-, -, ha⟩ | ⟨-, hn, -⟩ | ⟨hr, -, -⟩)⟩
  · exact MField.noConfusion hd
  · exact ha rfl
  · exact MField.noConfusion hn
  · exact Option.noConfusion hr

/-- C4 amended: the sweep selects an issue exactly when its status is reported,
in-progress or escalated and one of the four clauses holds, with clause (c) reading
"escalationDeadline is null or absent" (a Mongo equality against null matches both);
issues with assignedRole commissioner are never selected. -/
theorem overdue_selection_amended (now : Int) (i : IssueDoc) :
    (overdueFilter now i = true ↔ claimOverdueAmended now i) ∧
    (overdueFilter now i = true → i.assignedRole ≠ some "commissioner") := by
  have hmain : overdueFilter now i = true ↔ claimOverdueAmended now i := by
    unfold overdueFilter claimOverdueAmended
    have hg : i.createdAt ≤ now - gracePeriodMs ↔ now - i.createdAt ≥ gracePeriodMs :=
      int_age_iff i.createdAt now gracePeriodMs
    simp only [Bool.and_eq_true, Bool.or_eq_true, roleFsSup_iff, deadlinePassed_iff,
      deadlineMissing_iff, deadlineNullish_iff, decide_eq_true_eq, beq_iff_eq,
      Option.isSome_iff_ne_none, Option.isNone_iff_eq_none, List.mem_cons,
      List.not_mem_nil, or_false, hg, or_assoc, and_assoc]
  refine ⟨hmain, fun h hcomm => ?_⟩
  rcases hmain.mp h with ⟨-, hsel⟩
  rcases hsel with ⟨hr, -⟩ | ⟨hr, -⟩ | ⟨hr, -⟩ | ⟨hr, -, -⟩
  · rcases hr with h' | h' <;> rw [hcomm] at h' <;> exact absurd h' (by decide)
  · rcases hr with h' | h' <;> rw [hcomm] at h' <;> exact absurd h' (by decide)
  · rcases hr with h' | h' <;> rw [hcomm] at h' <;> exact absurd h' (by decide)
  · rw [hcomm] at hr
    exact Option.noConfusion hr

lemma pointsAwardStep_cases (inMem : IssueDoc) (env : ResolveEnv) :
    pointsAwardStep inMem env = none ∨
    pointsAwardStep inMem env = some (inMem, 0) ∨
    pointsAwardStep inMem env = some ({ inMem with pointsAwarded := true }, 10) := by
  unfold pointsAwardStep
  by_cases h1 : inMem.status ≠ "resolved"
  · rw [if_pos h1]
    cases hrb : inMem.reportedBy with
    | none => exact Or.inr (Or.inl rfl)
    | some rid =>
      dsimp only
      by_cases h2 : ¬ inMem.pointsAwarded = true
      · rw [if_pos h2]
        by_cases h3 : env.pointsFailure = true
        · rw [if_pos h3]
          exact Or.inl rfl
        · rw [if_neg h3]
          cases hf : env.findUser rid with
          | none => exact Or.inr (Or.inl rfl)
          | some u => exact Or.inr (Or.inr rfl)
      · rw [if_neg h2]
        exact Or.inr (Or.inl rfl)
  · rw [if_neg h1]
    exact Or.inr (Or.inl rfl)

lemma geofenceStep_status (i : IssueDoc) (lat lng : ℝ) (j : IssueDoc)
    (h : geofenceStep i lat lng = some j) : j.status = i.status := by
  unfold geofenceStep at h
  split at h
  · split at h
    · split at h
      · exact Option.noConfusion h
      · cases h; rfl
    · cases h; rfl
  · cases h; rfl

lemma attachPhoto_status (i : IssueDoc) (b : ResolveBody) :
    (attachPhoto i b).status = i.status := by
  unfold attachPhoto
  split <;> rfl

lemma resolveTail_issue_cases (issue inMem : IssueDoc) (user : UserDoc)
    (env : ResolveEnv) :
    (resolveTail issue inMem user env).issue = issue ∨
    ((resolveTail issue inMem user env).issue.status = "resolved" ∧
      inMem.status = "in-progress") := by
  unfold resolveTail
  rcases pointsAwardStep_cases inMem env with h | h | h <;> rw [h] <;> dsimp only
  · exact Or.inl rfl
  · by_cases hs : inMem.status ≠ "in-progress"
    · rw [if_pos hs]
      exact Or.inl rfl
    · rw [if_neg hs]
      push_neg at hs
      exact Or.inr ⟨rfl, hs⟩
  · by_cases hs : ({ inMem with pointsAwarded := true } : IssueDoc).status ≠ "in-progress"
    · rw [if_pos hs]
      exact Or.inl rfl
    · rw [if_neg hs]
      push_neg at hs
      exact Or.inr ⟨rfl, hs⟩

lemma resolveIssue_issue_cases (issue : IssueDoc) (user : UserDoc)
    (body : ResolveBody) (env : ResolveEnv) :
    (resolveIssue issue user body env).issue = issue ∨
    ((resolveIssue issue user body env).issue.status = "resolved" ∧
      issue.status = "in-progress") := by
  have htail : ∀ inMem : IssueDoc, inMem.status = issue.status →
      (resolveTail issue inMem user env).issue = issue ∨
      ((resolveTail issue inMem user env).issue.status = "resolved" ∧
        issue.status = "in-progress") := by
    intro inMem hst
    rcases resolveTail_issue_cases issue inMem user env with h | ⟨h1, h2⟩
    · exact Or.inl h
    · exact Or.inr ⟨h1, hst ▸ h2⟩
  unfold resolveIssue
  split
  · exact Or.inl rfl
  · split
    · exact Or.inl rfl
    · cases hlt : body.latitude with
      | none =>
        dsimp only
        exact htail _ (attachPhoto_status issue body)
      | some lat =>
        cases hlg : body.longitude with
        | none =>
          dsimp only
          exact htail _ (attachPhoto_status issue body)
        | some lng =>
          dsimp only
          split
          · cases hg : geofenceStep (attachPhoto issue body) lat lng with
            | none => exact Or.inl rfl
            | some issue2 =>
              exact htail _
                ((geofenceStep_status _ _ _ _ hg).trans (attachPhoto_status issue body))
          · exact htail _ (attachPhoto_status issue body)

/-- C2: an unaccepted issue cannot be resolved (error, record unchanged, no points);
when acceptedBy is set, a caller who is neither that staff member nor an admin gets
Forbidden with the record unchanged; and the persisted record transitions to
resolved only from status in-progress. -/
theorem resolve_authorization (issue : IssueDoc) (user : UserDoc) (body : ResolveBody)
    (env : ResolveEnv) :
    (issue.acceptedBy = none →
      resolveIssue issue user body env = ⟨.errNotAccepted, issue, 0⟩) ∧
    (∀ a, issue.acceptedBy = some a → user.role ≠ "admin" → user.id ≠ a →
      resolveIssue issue user body env = ⟨.errNotAccepter, issue, 0⟩) ∧
    ((resolveIssue issue user body env).issue.status = "resolved" →
      issue.status ≠ "resolved" → issue.status = "in-progress") := by
  refine ⟨?_, ?_, ?_⟩
  · intro h
    unfold resolveIssue
    rw [if_pos h]
  · intro a ha hadmin hne
    unfold resolveIssue
    rw [if_neg (by simp [ha])]
    rw [if_pos ⟨hadmin, fun hh => hne (Option.some.inj (ha ▸ hh)).symm⟩]
  · intro hres hneq
    rcases resolveIssue_issue_cases issue user body env with h | ⟨_, h2⟩
    · rw [h] at hres
      exact absurd hres hneq
    · exact h2

/-- C2 witness: an unaccepted issue, a wrong caller on an accepted issue, and a
successful resolution starting from in-progress. -/
theorem resolve_authorization_case :
    resolveIssue baseIssue baseUser noBody baseEnv = ⟨.errNotAccepted, baseIssue, 0⟩ ∧
    resolveIssue { baseIssue with acceptedBy := some 9, status := "in-progress" }
        baseUser noBody baseEnv =
      ⟨.errNotAccepter,
        { baseIssue with acceptedBy := some 9, status := "in-progress" }, 0⟩ ∧
    IssueDoc.status { baseIssue with acceptedBy := some 7, status := "in-progress" } =
      "in-progress" :=
  ⟨(resolve_authorization baseIssue baseUser noBody baseEnv).1 rfl,
   (resolve_authorization { baseIssue with acceptedBy := some 9, status := "in-progress" }
      baseUser noBody baseEnv).2.1 9 rfl (by decide) (by decide),
   (resolve_authorization { baseIssue with acceptedBy := some 7, status := "in-progress" }
      baseUser noBody baseEnv).2.2 rfl (by decide)⟩

/-- C4 witness: a field-staff issue with an explicitly null deadline past the grace
window is selected, and satisfies the amended predicate. -/
theorem overdue_selection_amended_case :
    claimOverdueAmended 1000000000
      { baseIssue with
        status := "in-progress", assignedRole := some "field-staff",
        escalationDeadline := .nul, createdAt := 0 } :=
  (overdue_selection_amended 1000000000 _).1.mp rfl

lemma length_filter_pos_add_neg {α : Type} (p : α → Bool) (l : List α) :
    (l.filter p).length + (l.filter (fun a => ! p a)).length = l.length := by
  induction l with
  | nil => rfl
  | cons a t ih =>
    cases h : p a <;> simp [List.filter_cons, h] <;> omega

lemma sweepLoop_cons (cfg : String → String → Int) (now : Int) (dir : List UserDoc)
    (oracle : IssueDoc → Option String) (issue : IssueDoc) (rest : List IssueDoc) :
    (sweepLoop cfg now dir oracle (issue :: rest)).1 =
      sweepEntriesOf cfg now dir oracle issue ++ (sweepLoop cfg now dir oracle rest).1 := by
  cases h : oracle issue <;> simp [sweepLoop, sweepEntriesOf, h]

lemma sweepEntriesOf_length_le (cfg : String → String → Int) (now : Int)
    (dir : List UserDoc) (oracle : IssueDoc → Option String) (issue : IssueDoc) :
    (sweepEntriesOf cfg now dir oracle issue).length ≤ 1 := by
  unfold sweepEntriesOf
  cases oracle issue
  · cases (processOverdueIssue cfg now dir issue).1 <;> simp
  · simp

lemma sweepLoop_length_le (cfg : String → String → Int) (now : Int)
    (dir : List UserDoc) (oracle : IssueDoc → Option String) (l : List IssueDoc) :
    (sweepLoop cfg now dir oracle l).1.length ≤ l.length := by
  induction l with
  | nil => simp [sweepLoop]
  | cons issue rest ih =>
    rw [sweepLoop_cons]
    have h1 := sweepEntriesOf_length_le cfg now dir oracle issue
    simp only [List.length_append, List.length_cons]
    omega

lemma sweepLoop_error_mem (cfg : String → String → Int) (now : Int)
    (dir : List UserDoc) (oracle : IssueDoc → Option String) (l : List IssueDoc)
    (i : IssueDoc) (e : String) (hmem : i ∈ l) (he : oracle i = some e) :
    (⟨i.id, i.title, none, none, false, some e⟩ : SweepEntry) ∈
      (sweepLoop cfg now dir oracle l).1 := by
  induction l with
  | nil => cases hmem
  | cons a rest ih =>
    rw [sweepLoop_cons]
    rcases List.mem_cons.mp hmem with h | h
    · subst h
      simp [sweepEntriesOf, he]
    · exact List.mem_append_right _ (ih h)

/-- C6 counterexample: one selected issue (field-staff, expired deadline) and a
directory with no supervisor: escalateIssue returns null, the loop records no entry,
so the sweep returns checked=1, escalated=0, failed=0 with an empty results list —
the claimed per-issue entry is missing and checked ≠ escalated + failed. -/
theorem sweep_results_cex :
    (checkAndEscalateIssues testCfg 1000000 [] (fun _ => none) [overdueFixture]).1 =
      ⟨1, 0, 0, []⟩ ∧
    (checkAndEscalateIssues testCfg 1000000 [] (fun _ => none) [overdueFixture]).1.checked ≠
      (checkAndEscalateIssues testCfg 1000000 [] (fun _ => none) [overdueFixture]).1.escalated +
        (checkAndEscalateIssues testCfg 1000000 [] (fun _ => none) [overdueFixture]).1.failed :=
  ⟨rfl, by decide⟩

/-- C6 amended: checked counts every selected issue; escalated and failed count the
success and failure entries of the itemized list, which partition it; a thrown error
while processing one issue is caught and recorded as exactly that issue's failure
entry without aborting the remaining issues (the loop's output is that issue's
entries followed by the rest's); but a no-op outcome (for example no eligible staff)
records no entry, so escalated + failed ≤ checked rather than equality. -/
theorem sweep_results_amended (cfg : String → String → Int) (now : Int)
    (dir : List UserDoc) (oracle : IssueDoc → Option String) (issues : List IssueDoc) :
    (checkAndEscalateIssues cfg now dir oracle issues).1.checked =
      (issues.filter (overdueFilter now)).length ∧
    (checkAndEscalateIssues cfg now dir oracle issues).1.escalated =
      ((checkAndEscalateIssues cfg now dir oracle issues).1.results.filter
        (·.success)).length ∧
    (checkAndEscalateIssues cfg now dir oracle issues).1.failed =
      ((checkAndEscalateIssues cfg now dir oracle issues).1.results.filter
        (fun r => ! r.success)).length ∧
    (checkAndEscalateIssues cfg now dir oracle issues).1.escalated +
        (checkAndEscalateIssues cfg now dir oracle issues).1.failed =
      (checkAndEscalateIssues cfg now dir oracle issues).1.results.length ∧
    (checkAndEscalateIssues cfg now dir oracle issues).1.results.length ≤
      (checkAndEscalateIssues cfg now dir oracle issues).1.checked ∧
    (∀ i ∈ issues.filter (overdueFilter now), ∀ e, oracle i = some e →
      (⟨i.id, i.title, none, none, false, some e⟩ : SweepEntry) ∈
        (checkAndEscalateIssues cfg now dir oracle issues).1.results) ∧
    (∀ i rest, (sweepLoop cfg now dir oracle (i :: rest)).1 =
      sweepEntriesOf cfg now dir oracle i ++ (sweepLoop cfg now dir oracle rest).1) := by
  refine ⟨rfl, rfl, rfl, ?_, ?_, ?_, ?_⟩
  · exact length_filter_pos_add_neg _ _
  · exact sweepLoop_length_le cfg now dir oracle _
  · intro i hi e he
    exact sweepLoop_error_mem cfg now dir oracle _ i e hi he
  · exact sweepLoop_cons cfg now dir oracle

/-- C6 witness: a selected issue whose processing rejects is recorded as exactly one
failure entry in the sweep's results. -/
theorem sweep_results_amended_case :
    (⟨1, "pothole", none, none, false, some "db down"⟩ : SweepEntry) ∈
      (checkAndEscalateIssues testCfg 1000000 [] (fun _ => some "db down")
        [overdueFixture]).1.results :=
  (sweep_results_amended testCfg 1000000 [] (fun _ => some "db down")
      [overdueFixture]).2.2.2.2.2.1 overdueFixture
    (List.mem_filter.mpr ⟨List.mem_singleton.mpr rfl, rfl⟩) "db down" rfl

/-- C7 counterexample: a never-assigned high-priority issue past the commissioner
age threshold, with an eligible commissioner available: the sweep fast-tracks it
(assignedRole commissioner, status escalated, results entry with fromRole
"unassigned") but appends nothing to the issue's escalationHistory, which the claim
requires. -/
theorem fasttrack_history_cex :
    (checkAndEscalateIssues testCfg 3600001 [commFixture] (fun _ => none)
        [unassignedHighFixture]).2.1.map (·.assignedRole) = [some "commissioner"] ∧
    (checkAndEscalateIssues testCfg 3600001 [commFixture] (fun _ => none)
        [unassignedHighFixture]).2.1.map (·.status) = ["escalated"] ∧
    (checkAndEscalateIssues testCfg 3600001 [commFixture] (fun _ => none)
        [unassignedHighFixture]).2.1.map (·.escalationHistory) = [[]] ∧
    (checkAndEscalateIssues testCfg 3600001 [commFixture] (fun _ => none)
        [unassignedHighFixture]).1.results =
      [⟨1, "pothole", some "unassigned", some "commissioner", true, none⟩] :=
  ⟨rfl, rfl, rfl, rfl⟩

/-- C7 amended: a qualifying issue with assignedRole unset, priority high and age at
least the commissioner threshold (600000 ms), provided at least one eligible
commissioner exists, is fast-tracked directly to assignedRole commissioner with
status escalated, a fresh deadline for the new role, assignment to the first
eligible commissioner and a sweep-results entry whose fromRole is "unassigned"; the
issue's escalationHistory is left unchanged (no entry is appended). -/
theorem fasttrack_commissioner (cfg : String → String → Int) (now : Int)
    (dir : List UserDoc) (issue : IssueDoc) (u : UserDoc) (rest : List UserDoc)
    (_hsel : overdueFilter now issue = true)
    (hrole : issue.assignedRole = none)
    (hpri : issue.priority = some "high")
    (hage : now - issue.createdAt ≥ 600000)
    (hc0 : issue.createdAt ≠ 0)
    (hdir : findAllUsersForRole dir "commissioner" issue.category = u :: rest) :
    processOverdueIssue cfg now dir issue =
      (some ⟨issue.id, issue.title, some "unassigned", some "commissioner", true, none⟩,
       { issue with
         assignedRole := some "commissioner", assignedTo := some u.id,
         assignedBy := some u.id, assignedAt := some now, status := "escalated",
         escalationDeadline :=
           MField.val (calculateEscalationDeadline cfg now "high" "commissioner") },
       (u :: rest).map (·.id)) := by
  have htr : targetRoleFor now issue = "commissioner" := by
    unfold targetRoleFor
    rw [hpri, if_pos hc0]
    simp only [Option.getD_some]
    rw [if_pos (Or.inl trivial), if_pos hage]
  unfold processOverdueIssue
  rw [hrole]
  dsimp only
  rw [htr]
  rw [if_neg (by decide : ¬ ("commissioner" : String) = "field-staff")]
  rw [hdir]
  dsimp only
  rw [if_pos (by rw [hpri]; exact fun hh => Option.noConfusion hh)]
  rw [hpri]
  rfl

/-- C7 witness: the fast-track at a concrete unassigned high-priority issue with one
eligible commissioner. -/
theorem fasttrack_commissioner_case :
    processOverdueIssue testCfg 3600001 [commFixture] unassignedHighFixture =
      (some ⟨1, "pothole", some "unassigned", some "commissioner", true, none⟩,
       { unassignedHighFixture with
         assignedRole := some "commissioner", assignedTo := some 20,
         assignedBy := some 20, assignedAt := some 3600001, status := "escalated",
         escalationDeadline :=
           MField.val (calculateEscalationDeadline testCfg 3600001 "high" "commissioner") },
       [20]) :=
  fasttrack_commissioner testCfg 3600001 [commFixture] unassignedHighFixture
    commFixture [] rfl rfl rfl (by decide) (by decide) rfl

lemma sortStaff_eq_nil_iff (l : List UserDoc) : sortStaff l = [] ↔ l = [] := by
  unfold sortStaff
  constructor
  · intro h
    have hlen := List.length_insertionSort staffSortLE l
    rw [h] at hlen
    exact List.length_eq_zero.mp hlen.symm
  · intro h
    rw [h]
    rfl

lemma tierDept_eq_spec (role category : String) (u : UserDoc) :
    tierDept role category u = specTierDept role category u := by
  rw [Bool.eq_iff_iff]
  unfold tierDept specTierDept deptSet
  simp only [Bool.and_eq_true, Bool.or_eq_true, List.elem_iff, beq_iff_eq,
    List.mem_append, Option.mem_toList, Option.mem_def]
  tauto

lemma tierAll_imp_tierDept (role category : String) (u : UserDoc)
    (h : tierAll role u = true) : tierDept role category u = true := by
  unfold tierAll at h
  unfold tierDept
  simp only [Bool.and_eq_true, Bool.or_eq_true, List.elem_iff, beq_iff_eq] at h ⊢
  tauto

lemma specTierAll_imp_tierDept (role category : String) (u : UserDoc)
    (h : specTierAll role u = true) : tierDept role category u = true := by
  unfold specTierAll at h
  unfold tierDept
  simp only [Bool.and_eq_true, beq_iff_eq] at h
  obtain ⟨⟨h1, h2⟩, h3, h4⟩ := h
  have hne : deptSet u ≠ [] := by
    intro hnil
    rw [hnil] at h3
    simp at h3
  obtain ⟨d, hd⟩ := List.exists_mem_of_ne_nil _ hne
  have hall : d = "All" := by
    simpa using List.all_eq_true.mp h4 d hd
  subst hall
  simp only [Bool.and_eq_true, Bool.or_eq_true, List.elem_iff, beq_iff_eq]
  refine ⟨⟨h1, h2⟩, ?_⟩
  unfold deptSet at hd
  rcases List.mem_append.mp hd with hmem | hmem
  · exact Or.inl (Or.inl (Or.inr hmem))
  · exact Or.inr (Option.mem_def.mp (Option.mem_toList.mp hmem))

lemma tierDept_imp_tierAny (role category : String) (u : UserDoc)
    (h : tierDept role category u = true) : tierAny role u = true := by
  unfold tierDept at h
  unfold tierAny
  simp only [Bool.and_eq_true] at h ⊢
  exact h.1

lemma tierAll_imp_tierAny (role : String) (u : UserDoc)
    (h : tierAll role u = true) : tierAny role u = true := by
  unfold tierAll at h
  unfold tierAny
  simp only [Bool.and_eq_true] at h ⊢
  exact h.1

/-- C9: the code's three-query lookup equals the claim's three-tier first-non-empty
lookup (the second tiers differ as predicates — the code's matches any department set
containing "All", the claim's only the pure wildcard set — but both are subsets of
tier 1, so whenever tier 2 is consulted both are empty and the functions agree); the
result is empty exactly when no active staff member carries the role; and the
single-result variant returns the head of the list variant's result. -/
theorem eligible_staff_lookup (dir : List UserDoc) (role category : String) :
    findAllUsersForRole dir role category = specFindEligibleStaff dir role category ∧
    (findAllUsersForRole dir role category = [] ↔
      ∀ u ∈ dir, ¬ (u.role = role ∧ u.isActive = true)) ∧
    findUserForRole dir role category =
      (findAllUsersForRole dir role category).head? := by
  have hT : dir.filter (specTierDept role category) = dir.filter (tierDept role category) :=
    List.filter_congr (fun u _ => (tierDept_eq_spec role category u).symm)
  refine ⟨?_, ?_, ?_⟩
  · unfold findAllUsersForRole specFindEligibleStaff
    rw [hT]
    by_cases h1 : sortStaff (dir.filter (tierDept role category)) ≠ []
    · rw [if_pos h1, if_pos h1]
    · rw [if_neg h1, if_neg h1]
      push_neg at h1
      have h1' := (sortStaff_eq_nil_iff _).mp h1
      rw [List.filter_eq_nil_iff] at h1'
      have hall : dir.filter (tierAll role) = [] := by
        rw [List.filter_eq_nil_iff]
        intro u hu hA
        exact h1' u hu (tierAll_imp_tierDept role category u hA)
      have hallS : dir.filter (specTierAll role) = [] := by
        rw [List.filter_eq_nil_iff]
        intro u hu hA
        exact h1' u hu (specTierAll_imp_tierDept role category u hA)
      rw [hall, hallS]
  · unfold findAllUsersForRole
    constructor
    · intro h
      by_cases h1 : sortStaff (dir.filter (tierDept role category)) ≠ []
      · rw [if_pos h1] at h
        exact absurd h h1
      · rw [if_neg h1] at h
        by_cases h2 : sortStaff (dir.filter (tierAll role)) ≠ []
        · rw [if_pos h2] at h
          exact absurd h h2
        · rw [if_neg h2] at h
          have h3 := (sortStaff_eq_nil_iff _).mp h
          rw [List.filter_eq_nil_iff] at h3
          intro u hu hcond
          refine h3 u hu ?_
          unfold tierAny
          simp [hcond.1, hcond.2]
    · intro hno
      have hany : dir.filter (tierAny role) = [] := by
        rw [List.filter_eq_nil_iff]
        intro u hu hA
        refine hno u hu ?_
        unfold tierAny at hA
        simpa [Bool.and_eq_true, beq_iff_eq] using hA
      have h1 : dir.filter (tierDept role category) = [] := by
        rw [List.filter_eq_nil_iff]
        intro u hu hD
        rw [List.filter_eq_nil_iff] at hany
        exact hany u hu (tierDept_imp_tierAny role category u hD)
      have h2 : dir.filter (tierAll role) = [] := by
        rw [List.filter_eq_nil_iff]
        intro u hu hA
        rw [List.filter_eq_nil_iff] at hany
        exact hany u hu (tierAll_imp_tierAny role u hA)
      rw [h1, h2, hany]
      simp [sortStaff]
  · unfold findUserForRole findAllUsersForRole
    by_cases h1 : sortStaff (dir.filter (tierDept role category)) ≠ []
    · rw [if_pos h1]
      cases hh : (sortStaff (dir.filter (tierDept role category))).head? with
      | none =>
        rw [List.head?_eq_none_iff] at hh
        exact absurd hh h1
      | some u => rfl
    · rw [if_neg h1]
      push_neg at h1
      rw [h1, List.head?_nil]
      dsimp only
      by_cases h2 : sortStaff (dir.filter (tierAll role)) ≠ []
      · rw [if_pos h2]
        cases hh : (sortStaff (dir.filter (tierAll role))).head? with
        | none =>
          rw [List.head?_eq_none_iff] at hh
          exact absurd hh h2
        | some u => rfl
      · rw [if_neg h2]
        push_neg at h2
        rw [h2, List.head?_nil]

/-- C9 witness: the lookup at a concrete directory, plus emptiness when nobody
carries the role. -/
theorem eligible_staff_lookup_case :
    findAllUsersForRole [baseUser, commFixture] "field-staff" "Roads" =
      specFindEligibleStaff [baseUser, commFixture] "field-staff" "Roads" ∧
    findUserForRole [baseUser, commFixture] "field-staff" "Roads" =
      (findAllUsersForRole [baseUser, commFixture] "field-staff" "Roads").head? ∧
    findAllUsersForRole [commFixture] "supervisor" "Roads" = [] :=
  ⟨(eligible_staff_lookup [baseUser, commFixture] "field-staff" "Roads").1,
   (eligible_staff_lookup [baseUser, commFixture] "field-staff" "Roads").2.2,
   (eligible_staff_lookup [commFixture] "supervisor" "Roads").2.1.mpr (by decide)⟩

lemma storeResolvedLocation_status (i : IssueDoc) (lat lng : ℝ) :
    (storeResolvedLocation i lat lng).status = i.status := rfl

lemma pointsAwardStep_some_of (inMem : IssueDoc) (env : ResolveEnv)
    (hpf : env.pointsFailure = false) :
    pointsAwardStep inMem env = some (inMem, 0) ∨
    pointsAwardStep inMem env = some ({ inMem with pointsAwarded := true }, 10) := by
  unfold pointsAwardStep
  by_cases h1 : inMem.status ≠ "resolved"
  · rw [if_pos h1]
    cases hrb : inMem.reportedBy with
    | none => exact Or.inl rfl
    | some rid =>
      dsimp only
      by_cases h2 : ¬ inMem.pointsAwarded = true
      · rw [if_pos h2, if_neg (by simp [hpf])]
        cases hf : env.findUser rid with
        | none => exact Or.inl rfl
        | some u => exact Or.inr rfl
      · rw [if_neg h2]
        exact Or.inl rfl
  · rw [if_neg h1]
    exact Or.inl rfl

lemma resolveTail_success (issue inMem : IssueDoc) (user : UserDoc)
    (env : ResolveEnv) (hst : inMem.status = "in-progress")
    (hpf : env.pointsFailure = false) :
    (resolveTail issue inMem user env).result = .resolved ∧
    (resolveTail issue inMem user env).issue.resolvedLocationLat =
      inMem.resolvedLocationLat ∧
    (resolveTail issue inMem user env).issue.resolvedLocationLng =
      inMem.resolvedLocationLng := by
  unfold resolveTail
  rcases pointsAwardStep_some_of inMem env hpf with h | h <;> rw [h] <;> dsimp only
  · rw [if_neg (not_not_intro hst)]
    exact ⟨rfl, rfl, rfl⟩
  · rw [if_neg (not_not_intro hst)]
    exact ⟨rfl, rfl, rfl⟩

lemma sqrt_half_pos : (0 : ℝ) < Real.sqrt (1 / 2) :=
  Real.sqrt_pos.mpr (by norm_num)

lemma atan2_diag : atan2 (Real.sqrt (1 / 2)) (Real.sqrt (1 / 2)) = Real.pi / 4 := by
  unfold atan2
  rw [if_pos sqrt_half_pos, div_self (ne_of_gt sqrt_half_pos), Real.arctan_one]

/-- Whenever the haversine intermediate `a` evaluates to 1/2 the distance is a
quarter of the Earth's great circle. -/
lemma haversine_a_half (lat1 lng1 lat2 lng2 : ℝ)
    (ha : Real.sin ((lat2 - lat1) * Real.pi / 180 / 2) *
        Real.sin ((lat2 - lat1) * Real.pi / 180 / 2) +
      Real.cos (lat1 * Real.pi / 180) * Real.cos (lat2 * Real.pi / 180) *
        Real.sin ((lng2 - lng1) * Real.pi / 180 / 2) *
        Real.sin ((lng2 - lng1) * Real.pi / 180 / 2) = 1 / 2) :
    haversineDistance lat1 lng1 lat2 lng2 = 6371000 * (Real.pi / 2) := by
  unfold haversineDistance
  dsimp only
  rw [ha]
  rw [show (1 : ℝ) - 1 / 2 = 1 / 2 by norm_num, atan2_diag]
  ring

lemma haversine_equator_pole :
    haversineDistance 0 45 90 45 = 6371000 * (Real.pi / 2) := by
  apply haversine_a_half
  rw [show ((90 : ℝ) - 0) * Real.pi / 180 / 2 = Real.pi / 4 by ring,
    show ((45 : ℝ) - 45) * Real.pi / 180 / 2 = 0 by ring,
    show ((0 : ℝ)) * Real.pi / 180 = 0 by ring,
    show ((90 : ℝ)) * Real.pi / 180 = Real.pi / 2 by ring,
    Real.sin_pi_div_four, Real.sin_zero, Real.cos_zero, Real.cos_pi_div_two]
  have hs2 : Real.sqrt 2 * Real.sqrt 2 = 2 := Real.mul_self_sqrt (by norm_num)
  linear_combination hs2 / 4

lemma haversine_mirror :
    haversineDistance 45 90 (-45) 90 = 6371000 * (Real.pi / 2) := by
  apply haversine_a_half
  rw [show ((-45 : ℝ) - 45) * Real.pi / 180 / 2 = -(Real.pi / 4) by ring,
    show ((90 : ℝ) - 90) * Real.pi / 180 / 2 = 0 by ring,
    show ((45 : ℝ)) * Real.pi / 180 = Real.pi / 4 by ring,
    show ((-45 : ℝ)) * Real.pi / 180 = -(Real.pi / 4) by ring,
    Real.sin_neg, Real.cos_neg, Real.sin_pi_div_four, Real.sin_zero,
    Real.cos_pi_div_four]
  have hs2 : Real.sqrt 2 * Real.sqrt 2 = 2 := Real.mul_self_sqrt (by norm_num)
  linear_combination hs2 / 4

lemma quarter_circle_gt_100 : 6371000 * (Real.pi / 2) > 100 := by
  nlinarith [Real.pi_gt_three]

/-- C8 counterexample: the original report location is recorded as (0, 45) — on the
equator — but the source's truthiness guard treats the 0 coordinate as absent and
skips the geofence entirely: a resolution supplied from the North Pole (90, 45),
whose haversine distance from the report is a quarter of the Earth's circumference
(far beyond the 100 m maximum), succeeds and is stored, with no validation error. -/
theorem geofence_zero_coordinate_cex :
    (resolveIssue geoZeroIssue baseUser geoFarBody baseEnv).result = .resolved ∧
    (resolveIssue geoZeroIssue baseUser geoFarBody baseEnv).issue.resolvedLocationLat =
      some 90 ∧
    (resolveIssue geoZeroIssue baseUser geoFarBody baseEnv).issue.resolvedLocationLng =
      some 45 ∧
    geoZeroIssue.locationLat = some 0 ∧ geoZeroIssue.locationLng = some 45 ∧
    haversineDistance 0 45 90 45 > allowedDistanceMeters := by
  have hg : geofenceStep (attachPhoto geoZeroIssue geoFarBody) 90 45 =
      some (storeResolvedLocation (attachPhoto geoZeroIssue geoFarBody) 90 45) := by
    unfold geofenceStep
    rw [show (attachPhoto geoZeroIssue geoFarBody).locationLat = some 0 from rfl,
      show (attachPhoto geoZeroIssue geoFarBody).locationLng = some 45 from rfl]
    dsimp only
    rw [if_neg (by simp)]
  have hpath : resolveIssue geoZeroIssue baseUser geoFarBody baseEnv =
      resolveTail geoZeroIssue
        (storeResolvedLocation (attachPhoto geoZeroIssue geoFarBody) 90 45)
        baseUser baseEnv := by
    unfold resolveIssue
    rw [if_neg (by decide), if_neg (by decide)]
    rw [show geoFarBody.latitude = some 90 from rfl,
      show geoFarBody.longitude = some 45 from rfl]
    dsimp only
    rw [if_pos (by norm_num : (90 : ℝ) ≠ 0 ∧ (45 : ℝ) ≠ 0), hg]
  obtain ⟨r1, r2, r3⟩ := resolveTail_success geoZeroIssue
    (storeResolvedLocation (attachPhoto geoZeroIssue geoFarBody) 90 45)
    baseUser baseEnv rfl rfl
  rw [hpath]
  refine ⟨r1, r2.trans rfl, r3.trans rfl, rfl, rfl, ?_⟩
  rw [haversine_equator_pole]
  exact quarter_circle_gt_100

/-- C8 amended: for a resolve call that passes the earlier gates (the issue is
accepted and the caller is the accepter or an admin) and supplies a resolution
location with both coordinates nonzero, when the original report location is
recorded with both coordinates nonzero (the truthiness guard: a 0 coordinate
disables the check) and the haversine distance exceeds the configured 100 m
maximum, resolve fails with the geofence validation error, the issue is unchanged
and no points move. -/
theorem geofence_reject (issue : IssueDoc) (user : UserDoc) (body : ResolveBody)
    (env : ResolveEnv) (a : Nat) (lat lng olat olng : ℝ)
    (hacc : issue.acceptedBy = some a)
    (hauth : user.id = a ∨ user.role = "admin")
    (hlat : body.latitude = some lat) (hlat0 : lat ≠ 0)
    (hlng : body.longitude = some lng) (hlng0 : lng ≠ 0)
    (holat : issue.locationLat = some olat) (holat0 : olat ≠ 0)
    (holng : issue.locationLng = some olng) (holng0 : olng ≠ 0)
    (hdist : haversineDistance olat olng lat lng > allowedDistanceMeters) :
    resolveIssue issue user body env = ⟨.errGeofence, issue, 0⟩ := by
  unfold resolveIssue
  rw [if_neg (by simp [hacc])]
  rw [if_neg (by
    rintro ⟨hna, hne⟩
    rcases hauth with hu | hr
    · exact hne (by rw [hacc, hu])
    · exact hna hr)]
  rw [hlat, hlng]
  dsimp only
  rw [if_pos ⟨hlat0, hlng0⟩]
  have hg : geofenceStep (attachPhoto issue body) lat lng = none := by
    unfold geofenceStep
    have h1 : (attachPhoto issue body).locationLat = some olat := by
      unfold attachPhoto
      cases body.file <;> simpa using holat
    have h2 : (attachPhoto issue body).locationLng = some olng := by
      unfold attachPhoto
      cases body.file <;> simpa using holng
    rw [h1, h2]
    dsimp only
    rw [if_pos ⟨holat0, holng0⟩, if_pos hdist]
  rw [hg]

/-- C8 witness: a report at (45 N, 90 E) resolved from (45 S, 90 E), a quarter of
the Earth's circumference away, is rejected by the geofence. -/
theorem geofence_reject_case :
    resolveIssue geoStoredIssue baseUser geoMirrorBody baseEnv =
      ⟨.errGeofence, geoStoredIssue, 0⟩ :=
  geofence_reject geoStoredIssue baseUser geoMirrorBody baseEnv 7 (-45) 90 45 90
    rfl (Or.inl rfl) rfl (by norm_num) rfl (by norm_num) rfl (by norm_num) rfl
    (by norm_num)
    (by rw [haversine_mirror]; exact quarter_circle_gt_100)

/-- C10: when the issue has no stored report coordinates, resolve performs no
geofence check at all: any supplied (truthy) resolution location, however far away,
is accepted and stored in resolved.location without a validation error (stated on
an otherwise-successful call: authorized accepter or admin, status in-progress, and
the point award not rejecting). -/
theorem resolve_no_stored_coords (issue : IssueDoc) (user : UserDoc)
    (body : ResolveBody) (env : ResolveEnv) (a : Nat) (lat lng : ℝ)
    (hacc : issue.acceptedBy = some a)
    (hauth : user.id = a ∨ user.role = "admin")
    (hst : issue.status = "in-progress")
    (hlat : body.latitude = some lat) (hlat0 : lat ≠ 0)
    (hlng : body.longitude = some lng) (hlng0 : lng ≠ 0)
    (hno1 : issue.locationLat = none)
    (hpf : env.pointsFailure = false) :
    (resolveIssue issue user body env).result = .resolved ∧
    (resolveIssue issue user body env).issue.resolvedLocationLat = some lat ∧
    (resolveIssue issue user body env).issue.resolvedLocationLng = some lng := by
  unfold resolveIssue
  rw [if_neg (by simp [hacc])]
  rw [if_neg (by
    rintro ⟨hna, hne⟩
    rcases hauth with hu | hr
    · exact hne (by rw [hacc, hu])
    · exact hna hr)]
  rw [hlat, hlng]
  dsimp only
  rw [if_pos ⟨hlat0, hlng0⟩]
  have h1 : (attachPhoto issue body).locationLat = none := by
    unfold attachPhoto
    cases body.file <;> simpa using hno1
  have hg : geofenceStep (attachPhoto issue body) lat lng =
      some (storeResolvedLocation (attachPhoto issue body) lat lng) := by
    unfold geofenceStep
    rw [h1]
  rw [hg]
  dsimp only
  have hstm : (storeResolvedLocation (attachPhoto issue body) lat lng).status =
      "in-progress" := by
    rw [storeResolvedLocation_status, attachPhoto_status]
    exact hst
  obtain ⟨r1, r2, r3⟩ := resolveTail_success issue
    (storeResolvedLocation (attachPhoto issue body) lat lng) user env hstm hpf
  exact ⟨r1, r2.trans rfl, r3.trans rfl⟩

/-- C10 witness: no stored coordinates, a far-away supplied location is stored and
the resolve succeeds. -/
theorem resolve_no_stored_coords_case :
    (resolveIssue geoNoCoordsIssue baseUser geoAnyBody baseEnv).result = .resolved ∧
    (resolveIssue geoNoCoordsIssue baseUser geoAnyBody baseEnv).issue.resolvedLocationLat =
      some 500 ∧
    (resolveIssue geoNoCoordsIssue baseUser geoAnyBody baseEnv).issue.resolvedLocationLng =
      some 500 :=
  resolve_no_stored_coords geoNoCoordsIssue baseUser geoAnyBody baseEnv 7 500 500
    rfl (Or.inl rfl) rfl rfl (by norm_num) rfl (by norm_num) rfl rfl

end IssueReporting
